import Mathlib

/-
Verification of the multi-strategy Binance trading-bot signal engine.

Shallow embedding conventions:
* Python/pandas float64 values are idealised as exact rationals.  Where pandas
  produces NaN or infinities (rolling windows with insufficient history,
  division by zero inside numpy expressions) we use the explicit type `EF`
  below, whose operations follow IEEE-754 rules: any operation on NaN is NaN,
  comparing with NaN yields `false`, finite/0 is a signed infinity, 0/0 is NaN.
* A pandas DataFrame of OHLCV rows is a `List Candle`; a derived column is a
  function from the row index to `EF` (or to `ℚ` where the source column can
  never be NaN).  Row accesses in the detectors only ever happen at indices
  the surrounding code guards, so total `getD` access with a zero default is
  observationally equal to the Python code.
* Python scalar float division raises `ZeroDivisionError` on a zero divisor
  (unlike numpy array division); fallible scalar paths therefore return
  `Option`, with `none` for a raised exception.  Likewise a detector that can
  raise `IndexError` (an `iloc` access past the end) returns
  `Option (Option Signal)`: `none` models the raise, `some none` "no signal",
  and `some (some s)` an emitted signal.
-/

set_option autoImplicit false
set_option maxRecDepth 100000

namespace BiBot

/-- Extended rational mirroring IEEE-754 float behaviour for the cases the
pandas code can reach: NaN, the two infinities, and finite values. -/
inductive EF where
  | nan : EF
  | pinf : EF
  | ninf : EF
  | fin : ℚ → EF
deriving DecidableEq

namespace EF

/-- IEEE negation. -/
def neg : EF → EF
  | nan => nan
  | pinf => ninf
  | ninf => pinf
  | fin x => fin (-x)

/-- IEEE addition (inf + -inf = NaN). -/
def add : EF → EF → EF
  | nan, _ => nan
  | _, nan => nan
  | pinf, ninf => nan
  | ninf, pinf => nan
  | pinf, _ => pinf
  | _, pinf => pinf
  | ninf, _ => ninf
  | _, ninf => ninf
  | fin x, fin y => fin (x + y)

/-- IEEE subtraction. -/
def sub (a b : EF) : EF := add a (neg b)

/-- IEEE multiplication (0 * inf = NaN). -/
def mul : EF → EF → EF
  | nan, _ => nan
  | _, nan => nan
  | pinf, pinf => pinf
  | pinf, ninf => ninf
  | ninf, pinf => ninf
  | ninf, ninf => pinf
  | pinf, fin y => if 0 < y then pinf else if y < 0 then ninf else nan
  | fin x, pinf => if 0 < x then pinf else if x < 0 then ninf else nan
  | ninf, fin y => if 0 < y then ninf else if y < 0 then pinf else nan
  | fin x, ninf => if 0 < x then ninf else if x < 0 then pinf else nan
  | fin x, fin y => fin (x * y)

/-- IEEE division as numpy performs it on arrays: finite/0 is a signed
infinity, 0/0 and inf/inf are NaN, finite/inf is 0 (the sign of the zero is
dropped; no later operation in the embedded code divides by such a zero). -/
def div : EF → EF → EF
  | nan, _ => nan
  | _, nan => nan
  | pinf, pinf => nan
  | pinf, ninf => nan
  | ninf, pinf => nan
  | ninf, ninf => nan
  | pinf, fin y => if y < 0 then ninf else pinf
  | ninf, fin y => if y < 0 then pinf else ninf
  | fin _, pinf => fin 0
  | fin _, ninf => fin 0
  | fin x, fin y =>
    if y = 0 then (if x = 0 then nan else if 0 < x then pinf else ninf)
    else fin (x / y)

/-- Strict less-than; any comparison involving NaN is `false`. -/
def blt : EF → EF → Bool
  | nan, _ => false
  | _, nan => false
  | ninf, ninf => false
  | ninf, _ => true
  | _, ninf => false
  | pinf, _ => false
  | _, pinf => true
  | fin x, fin y => decide (x < y)

/-- Non-strict comparison; any comparison involving NaN is `false`. -/
def ble : EF → EF → Bool
  | nan, _ => false
  | _, nan => false
  | ninf, _ => true
  | _, ninf => false
  | _, pinf => true
  | pinf, _ => false
  | fin x, fin y => decide (x ≤ y)

/-- Equality test; NaN is not equal to anything, including itself. -/
def beq : EF → EF → Bool
  | nan, _ => false
  | _, nan => false
  | pinf, pinf => true
  | ninf, ninf => true
  | pinf, _ => false
  | _, pinf => false
  | ninf, _ => false
  | _, ninf => false
  | fin x, fin y => decide (x = y)

end EF

/-- One OHLCV row.  `opn` is the Python column `open` (a Lean keyword);
the timestamp column is never read by the signal engine and is omitted. -/
structure Candle where
  opn : ℚ
  high : ℚ
  low : ℚ
  close : ℚ
  volume : ℚ
deriving DecidableEq

def defaultCandle : Candle := ⟨0, 0, 0, 0, 0⟩

/-- Row access; all uses are at guarded in-range indices. -/
def candAt (cs : List Candle) (i : ℕ) : Candle := cs.getD i defaultCandle

def openF (cs : List Candle) (i : ℕ) : ℚ := (candAt cs i).opn
def highF (cs : List Candle) (i : ℕ) : ℚ := (candAt cs i).high
def lowF (cs : List Candle) (i : ℕ) : ℚ := (candAt cs i).low
def closeF (cs : List Candle) (i : ℕ) : ℚ := (candAt cs i).close
def volF (cs : List Candle) (i : ℕ) : ℚ := (candAt cs i).volume

/-! ### Indicator library (`AdvancedIndicators`) -/

/-- Smoothing factor of `Series.ewm(span=period, adjust=False)`. -/
def emaAlpha (period : ℕ) : ℚ := 2 / (period + 1)

/-- Recursive exponentially weighted mean, seeded with the first value. -/
def ewmMean (a : ℚ) (f : ℕ → ℚ) : ℕ → ℚ
  | 0 => f 0
  | i + 1 => (1 - a) * ewmMean a f i + a * f (i + 1)

/-- `AdvancedIndicators.calculate_ema`. -/
def calculate_ema (f : ℕ → ℚ) (period : ℕ) : ℕ → ℚ := ewmMean (emaAlpha period) f

/-- Sum of the trailing window of width `w` ending at index `i`. -/
def windowSum (w : ℕ) (f : ℕ → ℚ) (i : ℕ) : ℚ :=
  ((List.range w).map (fun j => f (i - j))).sum

/-- `Series.rolling(window=w).mean()`: NaN until the trailing window is
filled, then the plain mean.  (All series this is applied to are NaN-free:
the RSI gain/loss columns replace their initial NaN by 0 through
`where(..., 0)`, and the true-range column is NaN-free because
`DataFrame.max` skips NaN.) -/
def rollingMean (w : ℕ) (f : ℕ → ℚ) (i : ℕ) : EF :=
  if i + 1 < w then .nan else .fin (windowSum w f i / w)

/-- `delta.where(delta > 0, 0)`: the positive part of the close-to-close
difference; index 0 (where `diff` is NaN, hence the condition false) is 0. -/
def diffGain (f : ℕ → ℚ) (i : ℕ) : ℚ :=
  if i = 0 then 0 else max (f i - f (i - 1)) 0

/-- `(-delta).where(delta < 0, 0)`: the negative part, sign flipped. -/
def diffLoss (f : ℕ → ℚ) (i : ℕ) : ℚ :=
  if i = 0 then 0 else max (-(f i - f (i - 1))) 0

/-- Rolling average gain used by the RSI. -/
def avg_gain (f : ℕ → ℚ) (period : ℕ) : ℕ → EF := rollingMean period (diffGain f)

/-- Rolling average loss used by the RSI. -/
def avg_loss (f : ℕ → ℚ) (period : ℕ) : ℕ → EF := rollingMean period (diffLoss f)

/-- `AdvancedIndicators.calculate_rsi`: `100 - 100/(1 + gain/loss)` under
IEEE semantics (so `loss = 0 < gain` gives `rs = +inf` and RSI exactly 100,
and `gain = loss = 0` gives NaN). -/
def calculate_rsi (f : ℕ → ℚ) (period : ℕ) (i : ℕ) : EF :=
  EF.sub (.fin 100)
    (EF.div (.fin 100)
      (EF.add (.fin 1) (EF.div (avg_gain f period i) (avg_loss f period i))))

/-- Typical price `(high + low + close) / 3`. -/
def typicalPrice (cs : List Candle) (i : ℕ) : ℚ :=
  (highF cs i + lowF cs i + closeF cs i) / 3

/-- Cumulative sum up to and including index `i`. -/
def cumSum (f : ℕ → ℚ) (i : ℕ) : ℚ := ((List.range (i + 1)).map f).sum

/-- `AdvancedIndicators.calculate_vwap`: cumulative typical-price volume over
cumulative volume; a zero cumulative volume gives NaN or a signed infinity
exactly as numpy division would. -/
def calculate_vwap (cs : List Candle) (i : ℕ) : EF :=
  EF.div (.fin (cumSum (fun j => typicalPrice cs j * volF cs j) i))
    (.fin (cumSum (volF cs) i))

/-- True range.  At index 0 the two previous-close terms are NaN and
`DataFrame.max(axis=1)` skips them, leaving `high - low`. -/
def trueRange (cs : List Candle) (i : ℕ) : ℚ :=
  if i = 0 then highF cs 0 - lowF cs 0
  else
    max (highF cs i - lowF cs i)
      (max |highF cs i - closeF cs (i - 1)| |lowF cs i - closeF cs (i - 1)|)

/-- `AdvancedIndicators.calculate_atr`: rolling mean of the true range. -/
def calculate_atr (cs : List Candle) (period : ℕ) : ℕ → EF :=
  rollingMean period (trueRange cs)

/-- MACD line: EMA(12) - EMA(26) of the closes. -/
def macdLine (f : ℕ → ℚ) (i : ℕ) : ℚ :=
  calculate_ema f 12 i - calculate_ema f 26 i

/-- MACD signal line: EMA(9) of the MACD line. -/
def macdSignal (f : ℕ → ℚ) : ℕ → ℚ := calculate_ema (macdLine f) 9

/-- MACD histogram, the only MACD output the detectors read. -/
def macd_hist (f : ℕ → ℚ) (i : ℕ) : ℚ := macdLine f i - macdSignal f i

/-- `np.sign` on rationals. -/
def signQ (x : ℚ) : ℚ := if 0 < x then 1 else if x < 0 then -1 else 0

/-- `AdvancedIndicators.calculate_obv`: cumulative volume signed by the
close-to-close change; the initial NaN term is `fillna(0)`-ed to 0. -/
def calculate_obv (cs : List Candle) : ℕ → ℚ
  | 0 => 0
  | i + 1 => calculate_obv cs i + signQ (closeF cs (i + 1) - closeF cs i) * volF cs (i + 1)

/-- `AdvancedIndicators.calculate_delta`: per-candle `close - open`. -/
def calculate_delta (cs : List Candle) (i : ℕ) : ℚ := closeF cs i - openF cs i

/-! ### Signals and strategy detectors (`AdvancedStrategies`) -/

inductive Direction where
  | LONG : Direction
  | SHORT : Direction
deriving DecidableEq

/-- An emitted trade signal (the dict returned by a strategy method).  The
price levels are `EF` because the arithmetic producing them can, for some
inputs, involve NaN or infinite intermediate values. -/
structure Signal where
  type : Direction
  entry : EF
  stop_loss : EF
  take_profit : EF
  confidence : ℚ
  strategy : String
deriving DecidableEq

/-- Long condition of `ema_crossover_rsi_strategy` (evaluated at the last
row `i1 = n-1`, previous row `n-2`). -/
def emaLongCond (cs : List Candle) : Bool :=
  let i1 := cs.length - 1
  let i2 := cs.length - 2
  decide (calculate_ema (closeF cs) 9 i2 ≤ calculate_ema (closeF cs) 21 i2) &&
  decide (calculate_ema (closeF cs) 21 i1 < calculate_ema (closeF cs) 9 i1) &&
  EF.blt (.fin 50) (calculate_rsi (closeF cs) 14 i1) &&
  EF.blt (calculate_rsi (closeF cs) 14 i1) (.fin 70) &&
  decide (calculate_ema (closeF cs) 50 i1 < closeF cs i1) &&
  EF.blt (EF.mul (rollingMean 20 (volF cs) i1) (.fin 1.2)) (.fin (volF cs i1))

/-- Short condition of `ema_crossover_rsi_strategy`. -/
def emaShortCond (cs : List Candle) : Bool :=
  let i1 := cs.length - 1
  let i2 := cs.length - 2
  decide (calculate_ema (closeF cs) 21 i2 ≤ calculate_ema (closeF cs) 9 i2) &&
  decide (calculate_ema (closeF cs) 9 i1 < calculate_ema (closeF cs) 21 i1) &&
  EF.blt (calculate_rsi (closeF cs) 14 i1) (.fin 50) &&
  EF.blt (.fin 30) (calculate_rsi (closeF cs) 14 i1) &&
  decide (closeF cs i1 < calculate_ema (closeF cs) 50 i1) &&
  EF.blt (EF.mul (rollingMean 20 (volF cs) i1) (.fin 1.2)) (.fin (volF cs i1))

/-- Long signal built by `ema_crossover_rsi_strategy`. -/
def emaLongSignal (cs : List Candle) : Signal :=
  let i1 := cs.length - 1
  let atr := calculate_atr cs 14 i1
  ⟨.LONG, .fin (closeF cs i1),
    EF.sub (.fin (closeF cs i1)) (EF.mul (.fin 2) atr),
    EF.add (.fin (closeF cs i1)) (EF.mul (.fin 4) atr),
    75, "EMA Crossover with RSI"⟩

/-- Short signal built by `ema_crossover_rsi_strategy`. -/
def emaShortSignal (cs : List Candle) : Signal :=
  let i1 := cs.length - 1
  let atr := calculate_atr cs 14 i1
  ⟨.SHORT, .fin (closeF cs i1),
    EF.add (.fin (closeF cs i1)) (EF.mul (.fin 2) atr),
    EF.sub (.fin (closeF cs i1)) (EF.mul (.fin 4) atr),
    75, "EMA Crossover with RSI"⟩

/-- `AdvancedStrategies.ema_crossover_rsi_strategy`.  The method reads
`df.iloc[-1]` and `df.iloc[-2]` unconditionally, so it raises `IndexError`
(modelled by `none`) on fewer than two rows. -/
def ema_crossover_rsi_strategy (cs : List Candle) : Option (Option Signal) :=
  if cs.length < 2 then none
  else if emaLongCond cs then some (some (emaLongSignal cs))
  else if emaShortCond cs then some (some (emaShortSignal cs))
  else some none

/-- Long condition of `volume_profile_order_flow_strategy`. -/
def vpLongCond (cs : List Candle) : Bool :=
  let i1 := cs.length - 1
  EF.blt (calculate_vwap cs i1) (.fin (closeF cs i1)) &&
  decide (0 < calculate_delta cs i1) &&
  decide (calculate_ema (calculate_delta cs) 9 i1 * 1.5 < calculate_delta cs i1) &&
  EF.blt (EF.mul (rollingMean 20 (volF cs) i1) (.fin 1.5)) (.fin (volF cs i1))

/-- Short condition of `volume_profile_order_flow_strategy`. -/
def vpShortCond (cs : List Candle) : Bool :=
  let i1 := cs.length - 1
  EF.blt (.fin (closeF cs i1)) (calculate_vwap cs i1) &&
  decide (calculate_delta cs i1 < 0) &&
  decide (calculate_delta cs i1 < calculate_ema (calculate_delta cs) 9 i1 * 1.5) &&
  EF.blt (EF.mul (rollingMean 20 (volF cs) i1) (.fin 1.5)) (.fin (volF cs i1))

/-- Long signal of `volume_profile_order_flow_strategy`. -/
def vpLongSignal (cs : List Candle) : Signal :=
  let i1 := cs.length - 1
  let atr := calculate_atr cs 14 i1
  ⟨.LONG, .fin (closeF cs i1),
    EF.sub (calculate_vwap cs i1) atr,
    EF.add (.fin (closeF cs i1)) (EF.mul (.fin 3) atr),
    80, "Volume Profile + Order Flow"⟩

/-- Short signal of `volume_profile_order_flow_strategy`. -/
def vpShortSignal (cs : List Candle) : Signal :=
  let i1 := cs.length - 1
  let atr := calculate_atr cs 14 i1
  ⟨.SHORT, .fin (closeF cs i1),
    EF.add (calculate_vwap cs i1) atr,
    EF.sub (.fin (closeF cs i1)) (EF.mul (.fin 3) atr),
    80, "Volume Profile + Order Flow"⟩

/-- `AdvancedStrategies.volume_profile_order_flow_strategy`; raises on an
empty frame (`df.iloc[-1]`). -/
def volume_profile_order_flow_strategy (cs : List Candle) : Option (Option Signal) :=
  if cs.length = 0 then none
  else if vpLongCond cs then some (some (vpLongSignal cs))
  else if vpShortCond cs then some (some (vpShortSignal cs))
  else some none

/-- Centered swing high: `high.rolling(5, center=True).max()` is NaN unless
the two rows on each side exist. -/
def swingHighVal (cs : List Candle) (i : ℕ) : EF :=
  if 2 ≤ i ∧ i + 2 < cs.length then
    .fin (((List.range 5).map (fun j => highF cs (i - 2 + j))).foldl max (highF cs (i - 2)))
  else .nan

/-- Centered swing low. -/
def swingLowVal (cs : List Candle) (i : ℕ) : EF :=
  if 2 ≤ i ∧ i + 2 < cs.length then
    .fin (((List.range 5).map (fun j => lowF cs (i - 2 + j))).foldl min (lowF cs (i - 2)))
  else .nan

/-- `df['high'] == df['swing_high']` (false where the rolling max is NaN). -/
def isSwingHigh (cs : List Candle) (i : ℕ) : Bool :=
  EF.beq (.fin (highF cs i)) (swingHighVal cs i)

def isSwingLow (cs : List Candle) (i : ℕ) : Bool :=
  EF.beq (.fin (lowF cs i)) (swingLowVal cs i)

/-- `df[df['is_swing_high']].tail(3)` as the list of row indices. -/
def recentSwingHighs (cs : List Candle) : List ℕ :=
  let l := (List.range cs.length).filter (isSwingHigh cs)
  l.drop (l.length - 3)

def recentSwingLows (cs : List Candle) : List ℕ :=
  let l := (List.range cs.length).filter (isSwingLow cs)
  l.drop (l.length - 3)

/-- Long branch condition of `market_structure_break_strategy`. -/
def msbLongCond (cs : List Candle) : Bool :=
  let i1 := cs.length - 1
  let rh := recentSwingHighs cs
  decide (2 ≤ rh.length) &&
  decide (highF cs (rh.getD (rh.length - 2) 0) < closeF cs i1) &&
  EF.blt (.fin 55) (calculate_rsi (closeF cs) 14 i1) &&
  decide (0 < macd_hist (closeF cs) i1)

/-- Short branch condition of `market_structure_break_strategy`. -/
def msbShortCond (cs : List Candle) : Bool :=
  let i1 := cs.length - 1
  let rl := recentSwingLows cs
  decide (2 ≤ rl.length) &&
  decide (closeF cs i1 < lowF cs (rl.getD (rl.length - 2) 0)) &&
  EF.blt (calculate_rsi (closeF cs) 14 i1) (.fin 45) &&
  decide (macd_hist (closeF cs) i1 < 0)

/-- Long signal of `market_structure_break_strategy`: the stop is the most
recent swing low when one exists, else `close - 2*ATR`. -/
def msbLongSignal (cs : List Candle) : Signal :=
  let i1 := cs.length - 1
  let atr := calculate_atr cs 14 i1
  ⟨.LONG, .fin (closeF cs i1),
    (match (recentSwingLows cs).getLast? with
      | some j => .fin (lowF cs j)
      | none => EF.sub (.fin (closeF cs i1)) (EF.mul (.fin 2) atr)),
    EF.add (.fin (closeF cs i1)) (EF.mul (.fin 3) atr),
    72, "Market Structure Break"⟩

/-- Short signal of `market_structure_break_strategy`. -/
def msbShortSignal (cs : List Candle) : Signal :=
  let i1 := cs.length - 1
  let atr := calculate_atr cs 14 i1
  ⟨.SHORT, .fin (closeF cs i1),
    (match (recentSwingHighs cs).getLast? with
      | some j => .fin (highF cs j)
      | none => EF.add (.fin (closeF cs i1)) (EF.mul (.fin 2) atr)),
    EF.sub (.fin (closeF cs i1)) (EF.mul (.fin 3) atr),
    72, "Market Structure Break"⟩

/-- `AdvancedStrategies.market_structure_break_strategy`; raises on an empty
frame. -/
def market_structure_break_strategy (cs : List Candle) : Option (Option Signal) :=
  if cs.length = 0 then none
  else if msbLongCond cs then some (some (msbLongSignal cs))
  else if msbShortCond cs then some (some (msbShortSignal cs))
  else some none

/-- `df['fvg_up'] = df['low'].shift(-1) > df['high'].shift(1)`: both shifts
are NaN past the frame edge, and a NaN comparison is false. -/
def fvg_up (cs : List Candle) (i : ℕ) : Bool :=
  EF.blt (if 1 ≤ i then .fin (highF cs (i - 1)) else .nan)
    (if i + 1 < cs.length then .fin (lowF cs (i + 1)) else .nan)

/-- `df['fvg_down'] = df['high'].shift(-1) < df['low'].shift(1)`. -/
def fvg_down (cs : List Candle) (i : ℕ) : Bool :=
  EF.blt (if i + 1 < cs.length then .fin (highF cs (i + 1)) else .nan)
    (if 1 ≤ i then .fin (lowF cs (i - 1)) else .nan)

/-- First row index of `df.tail(3)`. -/
def tail3Start (cs : List Candle) : ℕ := cs.length - min 3 cs.length

/-- `last_3['low'].min()`. -/
def low3Min (cs : List Candle) : ℚ :=
  ((List.range (min 3 cs.length)).map (fun j => lowF cs (tail3Start cs + j))).foldl
    min (lowF cs (tail3Start cs))

/-- `last_3['high'].max()`. -/
def high3Max (cs : List Candle) : ℚ :=
  ((List.range (min 3 cs.length)).map (fun j => highF cs (tail3Start cs + j))).foldl
    max (highF cs (tail3Start cs))

/-- Long condition of `liquidity_sweep_fvg_strategy`.  `last_3['high'].iloc[1]`
is only reached when the first conjunct already forces at least two rows, so
the total `highF` access agrees with the Python short-circuit evaluation. -/
def liqLongCond (cs : List Candle) : Bool :=
  let i1 := cs.length - 1
  decide (low3Min cs < lowF cs (tail3Start cs)) &&
  decide (highF cs (tail3Start cs + 1) < closeF cs i1) &&
  fvg_up cs i1 &&
  EF.blt (EF.mul (rollingMean 20 (volF cs) i1) (.fin 1.5)) (.fin (volF cs i1))

/-- Short condition of `liquidity_sweep_fvg_strategy`. -/
def liqShortCond (cs : List Candle) : Bool :=
  let i1 := cs.length - 1
  decide (highF cs (tail3Start cs) < high3Max cs) &&
  decide (closeF cs i1 < lowF cs (tail3Start cs + 1)) &&
  fvg_down cs i1 &&
  EF.blt (EF.mul (rollingMean 20 (volF cs) i1) (.fin 1.5)) (.fin (volF cs i1))

/-- Long signal of `liquidity_sweep_fvg_strategy`. -/
def liqLongSignal (cs : List Candle) : Signal :=
  let i1 := cs.length - 1
  ⟨.LONG, .fin (closeF cs i1),
    EF.sub (.fin (low3Min cs)) (calculate_atr cs 14 i1),
    .fin (closeF cs i1 + (closeF cs i1 - low3Min cs) * 2),
    82, "Liquidity Sweep + FVG"⟩

/-- Short signal of `liquidity_sweep_fvg_strategy`. -/
def liqShortSignal (cs : List Candle) : Signal :=
  let i1 := cs.length - 1
  ⟨.SHORT, .fin (closeF cs i1),
    EF.add (.fin (high3Max cs)) (calculate_atr cs 14 i1),
    .fin (closeF cs i1 - (high3Max cs - closeF cs i1) * 2),
    82, "Liquidity Sweep + FVG"⟩

/-- `AdvancedStrategies.liquidity_sweep_fvg_strategy`; raises on an empty
frame (`last_3.iloc[-1]`). -/
def liquidity_sweep_fvg_strategy (cs : List Candle) : Option (Option Signal) :=
  if cs.length = 0 then none
  else if liqLongCond cs then some (some (liqLongSignal cs))
  else if liqShortCond cs then some (some (liqShortSignal cs))
  else some none

/-- Select the element with the smallest key (first occurrence on ties, as
`nsmallest(..., keep='first')`), returning it and the remaining list. -/
def selectMinIdx (key : ℕ → ℚ) : List ℕ → Option (ℕ × List ℕ)
  | [] => none
  | x :: xs =>
    match selectMinIdx key xs with
    | none => some (x, [])
    | some (m, r) => if key x ≤ key m then some (x, xs) else some (m, x :: r)

/-- Select the element with the largest key (first occurrence on ties). -/
def selectMaxIdx (key : ℕ → ℚ) : List ℕ → Option (ℕ × List ℕ)
  | [] => none
  | x :: xs =>
    match selectMaxIdx key xs with
    | none => some (x, [])
    | some (m, r) => if key m ≤ key x then some (x, xs) else some (m, x :: r)

/-- `nsmallest(2, col)` restricted to what the detector reads: the two rows,
in ascending key order.  Returns `none` when fewer than two rows exist. -/
def nsmallest2 (key : ℕ → ℚ) (l : List ℕ) : Option (ℕ × ℕ) :=
  match selectMinIdx key l with
  | none => none
  | some (m0, r) =>
    match selectMinIdx key r with
    | none => none
    | some (m1, _) => some (m0, m1)

/-- `nlargest(2, col)`: the two rows in descending key order. -/
def nlargest2 (key : ℕ → ℚ) (l : List ℕ) : Option (ℕ × ℕ) :=
  match selectMaxIdx key l with
  | none => none
  | some (m0, r) =>
    match selectMaxIdx key r with
    | none => none
    | some (m1, _) => some (m0, m1)

/-- Row indices of `df.tail(20)`. -/
def last20Idxs (cs : List Candle) : List ℕ :=
  let n := cs.length
  (List.range (min 20 n)).map (fun j => n - min 20 n + j)

/-- Bullish-divergence condition of `delta_divergence_strategy`, for the two
lowest-low rows `p0` (lowest) and `p1` (second lowest). -/
def ddBullCond (cs : List Candle) (p0 p1 : ℕ) : Bool :=
  let i1 := cs.length - 1
  decide (lowF cs p1 < lowF cs p0) &&
  decide (calculate_delta cs p0 < calculate_delta cs p1) &&
  EF.blt (rollingMean 20 (calculate_obv cs) i1) (.fin (calculate_obv cs i1)) &&
  EF.blt (calculate_rsi (closeF cs) 14 i1) (.fin 40)

/-- Bearish-divergence condition, for the two highest-high rows `q0`
(highest) and `q1` (second highest). -/
def ddBearCond (cs : List Candle) (q0 q1 : ℕ) : Bool :=
  let i1 := cs.length - 1
  decide (highF cs q0 < highF cs q1) &&
  decide (calculate_delta cs q1 < calculate_delta cs q0) &&
  EF.blt (.fin (calculate_obv cs i1)) (rollingMean 20 (calculate_obv cs) i1) &&
  EF.blt (.fin 60) (calculate_rsi (closeF cs) 14 i1)

/-- Bullish signal of `delta_divergence_strategy` (stop under the second
lowest low `p1`). -/
def ddBullSignal (cs : List Candle) (p1 : ℕ) : Signal :=
  let i1 := cs.length - 1
  let atr := calculate_atr cs 14 i1
  ⟨.LONG, .fin (closeF cs i1),
    EF.sub (.fin (lowF cs p1)) atr,
    EF.add (.fin (closeF cs i1)) (EF.mul (.fin 3) atr),
    78, "Delta Divergence"⟩

/-- Bearish signal of `delta_divergence_strategy`. -/
def ddBearSignal (cs : List Candle) (q1 : ℕ) : Signal :=
  let i1 := cs.length - 1
  let atr := calculate_atr cs 14 i1
  ⟨.SHORT, .fin (closeF cs i1),
    EF.add (.fin (highF cs q1)) atr,
    EF.sub (.fin (closeF cs i1)) (EF.mul (.fin 3) atr),
    78, "Delta Divergence"⟩

/-- Bearish half of `delta_divergence_strategy` (reached whether or not the
bullish half matched two rows). -/
def ddBearPart (cs : List Candle) : Option (Option Signal) :=
  match nlargest2 (highF cs) (last20Idxs cs) with
  | some (q0, q1) =>
    if ddBearCond cs q0 q1 then some (some (ddBearSignal cs q1)) else some none
  | none => some none

/-- `AdvancedStrategies.delta_divergence_strategy`.  No unguarded `iloc`
access: the method never raises, even on an empty frame. -/
def delta_divergence_strategy (cs : List Candle) : Option (Option Signal) :=
  match nsmallest2 (lowF cs) (last20Idxs cs) with
  | some (p0, p1) =>
    if ddBullCond cs p0 p1 then some (some (ddBullSignal cs p1)) else ddBearPart cs
  | none => ddBearPart cs

/-! ### Bot core (`TradingBot`) -/

/-- `BotConfig` (pydantic model). -/
structure BotConfig where
  symbol : String
  leverage : ℚ
  risk_percent : ℚ
  timeframe : String
  strategy_mode : String
  max_positions : ℕ
deriving DecidableEq

/-- The pydantic defaults of `BotConfig`. -/
def defaultConfig : BotConfig :=
  ⟨"BTC/USDT:USDT", 10, 1, "5m", "advanced", 3⟩

/-- The mutable attributes of a `TradingBot` instance. -/
structure BotState where
  config : BotConfig
  is_running : Bool
  positions : List Signal
  balance : ℚ
deriving DecidableEq

/-- `TradingBot.__init__`: not running, no positions, balance 10000. -/
def mkTradingBot (cfg : BotConfig) : BotState :=
  ⟨cfg, false, [], 10000⟩

/-- Python `round(x, 3)`: scale by 1000 and round half to even.  (On exact
rationals; the binary-float representation effects of CPython on inexact
decimals are outside the embedding.) -/
def roundHalfEven (q : ℚ) : ℤ :=
  if q - ⌊q⌋ < 1 / 2 then ⌊q⌋
  else if 1 / 2 < q - ⌊q⌋ then ⌊q⌋ + 1
  else if ⌊q⌋ % 2 = 0 then ⌊q⌋ else ⌊q⌋ + 1

def pyRound3 (q : ℚ) : ℚ := (roundHalfEven (q * 1000) : ℚ) / 1000

/-- `TradingBot.calculate_position_size`: the unguarded scalar float division
raises `ZeroDivisionError` when the stop distance is zero (`none`); otherwise
the risk amount over the stop distance, times the leverage, rounded to three
decimals. -/
def calculate_position_size (s : BotState) (entry stop_loss : ℚ) : Option ℚ :=
  let risk_amount := s.balance * (s.config.risk_percent / 100)
  let stop_distance := |entry - stop_loss|
  if stop_distance = 0 then none
  else some (pyRound3 (risk_amount / stop_distance * s.config.leverage))

/-- `TradingBot.execute_trade`, scalar levels: the blanket `except` turns the
sizing exception into `False`; otherwise the demo path logs and returns
`True`.  No bot attribute is written either way. -/
def execute_trade (s : BotState) (entry stop_loss : ℚ) : Bool :=
  (calculate_position_size s entry stop_loss).isSome

/-- `execute_trade` applied to a signal's levels.  A non-finite entry or stop
cannot make the scalar arithmetic raise (the distance is then `inf` or NaN,
never zero), so those cases return `True`. -/
def execute_trade_signal (s : BotState) (sig : Signal) : Bool :=
  match sig.entry, sig.stop_loss with
  | .fin e, .fin st => execute_trade s e st
  | _, _ => true

/-- Stable insertion used by the confidence sort: an element overtakes only
strictly more confident ones, so equal-confidence signals keep detector
order. -/
def insertByConfDesc (x : Signal) : List Signal → List Signal
  | [] => [x]
  | y :: ys =>
    if x.confidence < y.confidence then y :: insertByConfDesc x ys
    else x :: y :: ys

/-- `signals.sort(key=confidence, reverse=True)` (Python sorts are stable). -/
def sortByConfDesc (l : List Signal) : List Signal :=
  l.foldr insertByConfDesc []

/-- `TradingBot.analyze_market`: run the five detectors in order, collect the
non-null signals, sort by confidence descending.  `none` models an exception
escaping from any detector. -/
def analyze_market (cs : List Candle) : Option (List Signal) :=
  match ema_crossover_rsi_strategy cs with
  | none => none
  | some r1 =>
    match volume_profile_order_flow_strategy cs with
    | none => none
    | some r2 =>
      match market_structure_break_strategy cs with
      | none => none
      | some r3 =>
        match liquidity_sweep_fvg_strategy cs with
        | none => none
        | some r4 =>
          match delta_divergence_strategy cs with
          | none => none
          | some r5 =>
            some (sortByConfDesc ([r1, r2, r3, r4, r5].filterMap id))

/-- One iteration of `TradingBot.run`'s while-loop.  `fetched = none` is a
failed fetch; any exception inside the iteration is caught by the loop's
`except`.  The returned flag records whether `execute_trade` reported
success; no bot attribute is written by an iteration. -/
def loopIteration (s : BotState) (fetched : Option (List Candle)) : BotState × Bool :=
  match fetched with
  | none => (s, false)
  | some df =>
    if 50 < df.length then
      match analyze_market df with
      | none => (s, false)
      | some sigs =>
        match sigs with
        | [] => (s, false)
        | best :: _ =>
          if s.positions.length < s.config.max_positions then
            (s, execute_trade_signal s best)
          else (s, false)
    else (s, false)

/-- The head of `TradingBot.run`: sets `is_running = True`. -/
def startRun (s : BotState) : BotState := { s with is_running := true }

/-- `TradingBot.stop`: clears the running flag. -/
def stopBot (s : BotState) : BotState := { s with is_running := false }

/-! ### Checkers for the signal ordering invariant -/

/-- The directional ordering invariant of the spec, strict form:
LONG needs `stop < entry < take_profit`, SHORT the reverse. -/
def sigStrictOrderedB (s : Signal) : Bool :=
  match s.type with
  | .LONG => EF.blt s.stop_loss s.entry && EF.blt s.entry s.take_profit
  | .SHORT => EF.blt s.take_profit s.entry && EF.blt s.entry s.stop_loss

/-- Weak form of the ordering invariant. -/
def sigWeakOrderedB (s : Signal) : Bool :=
  match s.type with
  | .LONG => EF.ble s.stop_loss s.entry && EF.ble s.entry s.take_profit
  | .SHORT => EF.ble s.take_profit s.entry && EF.ble s.entry s.stop_loss

/-- Strict ordering on the stop side only. -/
def sigStopStrictB (s : Signal) : Bool :=
  match s.type with
  | .LONG => EF.blt s.stop_loss s.entry
  | .SHORT => EF.blt s.entry s.stop_loss

/-- Weak ordering on the entry/take-profit side only. -/
def sigEntryTpWeakB (s : Signal) : Bool :=
  match s.type with
  | .LONG => EF.ble s.entry s.take_profit
  | .SHORT => EF.ble s.take_profit s.entry

/-- Strict ordering of a detector result: vacuously holds for "no signal"
and for a raise. -/
def resultStrictOrderedB : Option (Option Signal) → Bool
  | some (some s) => sigStrictOrderedB s
  | _ => true

/-- Whether a detector result is an emitted signal. -/
def emitsSignal : Option (Option Signal) → Bool
  | some (some _) => true
  | _ => false

/-! ### The `/api/start` endpoint of `main-no-ccxt.py` -/

/-- Outcome of `start_bot` in `main-no-ccxt.py`, one constructor per
response branch. -/
inductive StartResp where
  | alreadyRunning : StartResp
  | noCredentials : StartResp
  | fetchError : StartResp
  | blockedInsufficientBalance : StartResp
  | started : StartResp
deriving DecidableEq

/-- `start_bot` from `main-no-ccxt.py`: reject when already running; reject
without credentials; reject when the balance fetch fails; block on a
non-positive total balance; otherwise schedule `trading_bot.start()` (which
sets `is_running = True`).  Returns the response and the resulting
`is_running` flag. -/
def start_bot (running : Bool) (haveCreds : Bool) (fetchedTotal : Option ℚ) :
    StartResp × Bool :=
  if running then (.alreadyRunning, running)
  else if !haveCreds then (.noCredentials, false)
  else
    match fetchedTotal with
    | none => (.fetchError, false)
    | some total =>
      if total ≤ 0 then (.blockedInsufficientBalance, false)
      else (.started, true)

/-! ### Concrete candle inputs used by counterexamples and witnesses -/

/-- 20 candles on which `volume_profile_order_flow_strategy` fires a LONG
with a zero last ATR: every candle from index 1 on has
`high = low =` the previous close (zero true range), closes rise by one,
and the last candle carries a large volume and positive delta. -/
def vpZeroAtrInput : List Candle :=
  [⟨100, 100, 100, 100, 1⟩,
   ⟨101, 100, 100, 101, 1⟩,
   ⟨102, 101, 101, 102, 1⟩,
   ⟨103, 102, 102, 103, 1⟩,
   ⟨104, 103, 103, 104, 1⟩,
   ⟨105, 104, 104, 105, 1⟩,
   ⟨106, 105, 105, 106, 1⟩,
   ⟨107, 106, 106, 107, 1⟩,
   ⟨108, 107, 107, 108, 1⟩,
   ⟨109, 108, 108, 109, 1⟩,
   ⟨110, 109, 109, 110, 1⟩,
   ⟨111, 110, 110, 111, 1⟩,
   ⟨112, 111, 111, 112, 1⟩,
   ⟨113, 112, 112, 113, 1⟩,
   ⟨114, 113, 113, 114, 1⟩,
   ⟨115, 114, 114, 115, 1⟩,
   ⟨116, 115, 115, 116, 1⟩,
   ⟨117, 116, 116, 117, 1⟩,
   ⟨118, 117, 117, 118, 1⟩,
   ⟨109, 118, 118, 119, 100⟩]

/-- 20 candles realising the intended liquidity-sweep pattern: the last
three candles sweep below the window's first low (95 < 99), the close
recovers above the middle high (103 > 100.5), the latest low clears the
high two candles back (101.5 > 101, the intended fair value gap), and the
last volume is well above 1.5 times the 20-candle average. -/
def liqSweepInput : List Candle :=
  List.replicate 17 ⟨100, 100, 100, 100, 1⟩ ++
  [⟨100, 101, 99, 100, 1⟩,
   ⟨100, 201 / 2, 95, 100, 1⟩,
   ⟨102, 207 / 2, 203 / 2, 103, 10⟩]

/-- 20 candles realising the intended bullish delta divergence: the two
lowest lows are 41 (index 15, delta -1/2) and 42 (index 14, delta -1), so
the more recent low is lower in price and higher in delta; OBV (91) is far
above its 20-candle mean (-981/20) and RSI14 is 800/67 < 40. -/
def ddDivergenceInput : List Candle :=
  List.replicate 6 ⟨100, 100, 100, 100, 1⟩ ++
  [⟨100, 50, 50, 50, 100⟩,
   ⟨50, 49, 49, 49, 1⟩,
   ⟨49, 48, 48, 48, 1⟩,
   ⟨48, 47, 47, 47, 1⟩,
   ⟨47, 46, 46, 46, 1⟩,
   ⟨46, 45, 45, 45, 1⟩,
   ⟨45, 44, 44, 44, 1⟩,
   ⟨44, 43, 43, 43, 1⟩,
   ⟨43, 42, 42, 42, 1⟩,
   ⟨83 / 2, 41, 41, 41, 1⟩,
   ⟨41, 43, 43, 43, 50⟩,
   ⟨43, 45, 45, 45, 50⟩,
   ⟨45, 47, 47, 47, 50⟩,
   ⟨47, 49, 49, 49, 50⟩]

/-- An arbitrary single well-formed candle. -/
def candleA : Candle := ⟨1, 2, 0, 1, 5⟩

/-- A second arbitrary candle. -/
def candleB : Candle := ⟨1, 3, 0, 2, 6⟩

/-! ## Helper lemmas -/

theorem EF.blt_nan_right (x : EF) : EF.blt x .nan = false := by
  cases x <;> rfl

theorem EF.blt_nan_left (y : EF) : EF.blt .nan y = false := by
  cases y <;> rfl

theorem EF.mul_nan_left (y : EF) : EF.mul .nan y = .nan := by
  cases y <;> rfl

theorem EF.blt_true_ne_nan {x y : EF} (h : EF.blt x y = true) :
    x ≠ .nan ∧ y ≠ .nan := by
  cases x <;> cases y <;> simp_all [EF.blt]

/-- Inverting a true comparison against a finite right operand. -/
theorem EF.blt_fin_right {x : EF} {c : ℚ} (h : EF.blt x (.fin c) = true) :
    x = .ninf ∨ ∃ q, x = .fin q ∧ q < c := by
  cases x <;> simp_all [EF.blt]

/-- Inverting a true comparison against a finite left operand. -/
theorem EF.blt_fin_left {x : EF} {c : ℚ} (h : EF.blt (.fin c) x = true) :
    x = .pinf ∨ ∃ q, x = .fin q ∧ c < q := by
  cases x <;> simp_all [EF.blt]

theorem EF.sub_fin_fin (a b : ℚ) : EF.sub (.fin a) (.fin b) = .fin (a - b) := by
  simp [EF.sub, EF.add, EF.neg, sub_eq_add_neg]

theorem EF.add_fin_fin (a b : ℚ) : EF.add (.fin a) (.fin b) = .fin (a + b) := rfl

theorem EF.mul_fin_fin (a b : ℚ) : EF.mul (.fin a) (.fin b) = .fin (a * b) := rfl

theorem EF.ble_fin_fin (a b : ℚ) : EF.ble (.fin a) (.fin b) = decide (a ≤ b) := rfl

theorem EF.blt_fin_fin (a b : ℚ) : EF.blt (.fin a) (.fin b) = decide (a < b) := rfl

theorem EF.sub_ninf_fin (a : ℚ) : EF.sub .ninf (.fin a) = .ninf := rfl

theorem EF.add_pinf_fin (a : ℚ) : EF.add .pinf (.fin a) = .pinf := rfl

theorem EF.blt_ninf_fin (c : ℚ) : EF.blt .ninf (.fin c) = true := rfl

theorem EF.ble_ninf_fin (c : ℚ) : EF.ble .ninf (.fin c) = true := rfl

theorem EF.blt_fin_pinf (c : ℚ) : EF.blt (.fin c) .pinf = true := rfl

theorem EF.ble_fin_pinf (c : ℚ) : EF.ble (.fin c) .pinf = true := rfl

theorem rollingMean_nan {w : ℕ} {f : ℕ → ℚ} {i : ℕ} (h : i + 1 < w) :
    rollingMean w f i = .nan := if_pos h

theorem rollingMean_fin {w : ℕ} {f : ℕ → ℚ} {i : ℕ} (h : ¬ i + 1 < w) :
    rollingMean w f i = .fin (windowSum w f i / w) := if_neg h

theorem rollingMean_ne_nan {w : ℕ} {f : ℕ → ℚ} {i : ℕ}
    (h : rollingMean w f i ≠ .nan) : w ≤ i + 1 := by
  by_cases hw : i + 1 < w
  · exact absurd (rollingMean_nan hw) h
  · omega

/-- A true comparison whose left side multiplies a rolling mean forces the
window to be filled. -/
theorem blt_mul_rollingMean_true {w : ℕ} {f : ℕ → ℚ} {i : ℕ} {y z : EF}
    (h : EF.blt (EF.mul (rollingMean w f i) y) z = true) : w ≤ i + 1 := by
  have hne := (EF.blt_true_ne_nan h).1
  apply rollingMean_ne_nan
  intro hnan
  rw [hnan] at hne
  exact hne (EF.mul_nan_left y)

theorem windowSum_nonneg {w : ℕ} {f : ℕ → ℚ} {i : ℕ}
    (h : ∀ k, k < w → 0 ≤ f (i - k)) : 0 ≤ windowSum w f i := by
  apply List.sum_nonneg
  intro x hx
  simp only [List.mem_map, List.mem_range] at hx
  obtain ⟨k, hk, rfl⟩ := hx
  exact h k hk

theorem diffGain_nonneg (f : ℕ → ℚ) (i : ℕ) : 0 ≤ diffGain f i := by
  unfold diffGain
  split
  · exact le_refl 0
  · exact le_max_right _ _

theorem diffLoss_nonneg (f : ℕ → ℚ) (i : ℕ) : 0 ≤ diffLoss f i := by
  unfold diffLoss
  split
  · exact le_refl 0
  · exact le_max_right _ _

theorem trueRange_nonneg_of_pos (cs : List Candle) {i : ℕ} (h : i ≠ 0) :
    0 ≤ trueRange cs i := by
  unfold trueRange
  rw [if_neg h]
  exact le_trans (abs_nonneg _) ((le_max_left _ _).trans (le_max_right _ _))

theorem trueRange_zero_nonneg (cs : List Candle) (h : lowF cs 0 ≤ highF cs 0) :
    0 ≤ trueRange cs 0 := by
  unfold trueRange
  rw [if_pos rfl]
  exact sub_nonneg.mpr h

/-- The ATR at a filled window is a finite nonnegative mean, provided the
window stays clear of index 0 or the first candle is well-formed there. -/
theorem atr_fin_nonneg (cs : List Candle) {i : ℕ} (h : 13 ≤ i)
    (h0 : i = 13 → lowF cs 0 ≤ highF cs 0) :
    ∃ a : ℚ, calculate_atr cs 14 i = .fin a ∧ 0 ≤ a := by
  refine ⟨windowSum 14 (trueRange cs) i / 14, rollingMean_fin (by omega), ?_⟩
  apply div_nonneg _ (by norm_num)
  apply windowSum_nonneg
  intro k hk
  by_cases hz : i - k = 0
  · rw [hz]
    apply trueRange_zero_nonneg
    exact h0 (by omega)
  · exact trueRange_nonneg_of_pos cs hz

theorem rsi_nan_of_short {f : ℕ → ℚ} {p i : ℕ} (h : i + 1 < p) :
    calculate_rsi f p i = .nan := by
  unfold calculate_rsi avg_gain avg_loss
  rw [rollingMean_nan h, rollingMean_nan h]
  rfl

theorem rsi_length_of_blt_right {f : ℕ → ℚ} {i : ℕ} {x : EF}
    (h : EF.blt x (calculate_rsi f 14 i) = true) : 14 ≤ i + 1 := by
  have hne := (EF.blt_true_ne_nan h).2
  by_cases hw : i + 1 < 14
  · exact absurd (rsi_nan_of_short hw) hne
  · omega

theorem rsi_length_of_blt_left {f : ℕ → ℚ} {i : ℕ} {x : EF}
    (h : EF.blt (calculate_rsi f 14 i) x = true) : 14 ≤ i + 1 := by
  have hne := (EF.blt_true_ne_nan h).1
  by_cases hw : i + 1 < 14
  · exact absurd (rsi_nan_of_short hw) hne
  · omega

/-- The value inside a finite rolling mean of a pointwise-nonnegative series
is nonnegative. -/
theorem rollingMean_fin_nonneg {w : ℕ} {f : ℕ → ℚ} {i : ℕ} {a : ℚ}
    (hf : ∀ j, 0 ≤ f j) (h : rollingMean w f i = .fin a) : 0 ≤ a := by
  by_cases hw : i + 1 < w
  · rw [rollingMean_nan hw] at h
    exact absurd h (by simp)
  · rw [rollingMean_fin hw] at h
    obtain rfl : windowSum w f i / w = a := by injection h
    exact div_nonneg (windowSum_nonneg fun k _ => hf _) (Nat.cast_nonneg w)

theorem selectMinIdx_none_iff (key : ℕ → ℚ) (l : List ℕ) :
    selectMinIdx key l = none ↔ l = [] := by
  cases l with
  | nil => simp [selectMinIdx]
  | cons x xs =>
    simp only [selectMinIdx]
    cases selectMinIdx key xs with
    | none => simp
    | some p =>
      obtain ⟨m, r⟩ := p
      by_cases hle : key x ≤ key m <;> simp [hle]

theorem selectMinIdx_min (key : ℕ → ℚ) :
    ∀ (l : List ℕ) (m : ℕ) (r : List ℕ), selectMinIdx key l = some (m, r) →
      ∀ y ∈ l, key m ≤ key y := by
  intro l
  induction l with
  | nil => intro m r h; simp [selectMinIdx] at h
  | cons x xs ih =>
    intro m r h y hy
    simp only [selectMinIdx] at h
    cases hxs : selectMinIdx key xs with
    | none =>
      simp only [hxs, Option.some.injEq, Prod.mk.injEq] at h
      obtain ⟨rfl, -⟩ := h
      have hnil : xs = [] := (selectMinIdx_none_iff key xs).mp hxs
      subst hnil
      rcases List.mem_cons.mp hy with rfl | hy0
      · exact le_refl _
      · simp at hy0
    | some p =>
      obtain ⟨m0, r0⟩ := p
      by_cases hle : key x ≤ key m0
      · simp only [hxs, if_pos hle, Option.some.injEq, Prod.mk.injEq] at h
        obtain ⟨rfl, -⟩ := h
        rcases List.mem_cons.mp hy with rfl | hy0
        · exact le_refl _
        · exact le_trans hle (ih m0 r0 hxs y hy0)
      · simp only [hxs, if_neg hle, Option.some.injEq, Prod.mk.injEq] at h
        obtain ⟨rfl, -⟩ := h
        rcases List.mem_cons.mp hy with rfl | hy0
        · exact le_of_not_le hle
        · exact ih m0 r0 hxs y hy0

theorem selectMinIdx_fst_mem (key : ℕ → ℚ) :
    ∀ (l : List ℕ) (m : ℕ) (r : List ℕ), selectMinIdx key l = some (m, r) →
      m ∈ l := by
  intro l
  induction l with
  | nil => intro m r h; simp [selectMinIdx] at h
  | cons x xs ih =>
    intro m r h
    simp only [selectMinIdx] at h
    cases hxs : selectMinIdx key xs with
    | none =>
      simp only [hxs, Option.some.injEq, Prod.mk.injEq] at h
      obtain ⟨rfl, -⟩ := h
      exact List.mem_cons_self _ _
    | some p =>
      obtain ⟨m0, r0⟩ := p
      by_cases hle : key x ≤ key m0
      · simp only [hxs, if_pos hle, Option.some.injEq, Prod.mk.injEq] at h
        obtain ⟨rfl, -⟩ := h
        exact List.mem_cons_self _ _
      · simp only [hxs, if_neg hle, Option.some.injEq, Prod.mk.injEq] at h
        obtain ⟨rfl, -⟩ := h
        exact List.mem_cons_of_mem _ (ih m0 r0 hxs)

theorem selectMinIdx_snd_subset (key : ℕ → ℚ) :
    ∀ (l : List ℕ) (m : ℕ) (r : List ℕ), selectMinIdx key l = some (m, r) →
      ∀ y ∈ r, y ∈ l := by
  intro l
  induction l with
  | nil => intro m r h; simp [selectMinIdx] at h
  | cons x xs ih =>
    intro m r h y hy
    simp only [selectMinIdx] at h
    cases hxs : selectMinIdx key xs with
    | none =>
      simp only [hxs, Option.some.injEq, Prod.mk.injEq] at h
      obtain ⟨-, rfl⟩ := h
      simp at hy
    | some p =>
      obtain ⟨m0, r0⟩ := p
      by_cases hle : key x ≤ key m0
      · simp only [hxs, if_pos hle, Option.some.injEq, Prod.mk.injEq] at h
        obtain ⟨-, rfl⟩ := h
        exact List.mem_cons_of_mem _ hy
      · simp only [hxs, if_neg hle, Option.some.injEq, Prod.mk.injEq] at h
        obtain ⟨-, rfl⟩ := h
        rcases List.mem_cons.mp hy with rfl | hy0
        · exact List.mem_cons_self _ _
        · exact List.mem_cons_of_mem _ (ih m0 r0 hxs y hy0)

/-- The two rows `nsmallest2` returns come in ascending key order. -/
theorem nsmallest2_le (key : ℕ → ℚ) (l : List ℕ) (a b : ℕ)
    (h : nsmallest2 key l = some (a, b)) : key a ≤ key b := by
  unfold nsmallest2 at h
  cases h0 : selectMinIdx key l with
  | none => simp [h0] at h
  | some p =>
    obtain ⟨m0, r⟩ := p
    cases h1 : selectMinIdx key r with
    | none => simp [h0, h1] at h
    | some q =>
      obtain ⟨m1, r1⟩ := q
      simp only [h0, h1, Option.some.injEq, Prod.mk.injEq] at h
      obtain ⟨rfl, rfl⟩ := h
      exact selectMinIdx_min key l m0 r h0 m1
        (selectMinIdx_snd_subset key l m0 r h0 m1 (selectMinIdx_fst_mem key r m1 r1 h1))

theorem selectMaxIdx_max (key : ℕ → ℚ) :
    ∀ (l : List ℕ) (m : ℕ) (r : List ℕ), selectMaxIdx key l = some (m, r) →
      ∀ y ∈ l, key y ≤ key m := by
  intro l
  induction l with
  | nil => intro m r h; simp [selectMaxIdx] at h
  | cons x xs ih =>
    intro m r h y hy
    simp only [selectMaxIdx] at h
    cases hxs : selectMaxIdx key xs with
    | none =>
      simp only [hxs, Option.some.injEq, Prod.mk.injEq] at h
      obtain ⟨rfl, -⟩ := h
      have hnil : xs = [] := by
        cases xs with
        | nil => rfl
        | cons z zs =>
          exfalso
          simp only [selectMaxIdx] at hxs
          cases hz : selectMaxIdx key zs with
          | none => simp [hz] at hxs
          | some q =>
            obtain ⟨mz, rz⟩ := q
            by_cases hle : key mz ≤ key z <;> simp [hz, hle] at hxs
      subst hnil
      rcases List.mem_cons.mp hy with rfl | hy0
      · exact le_refl _
      · simp at hy0
    | some p =>
      obtain ⟨m0, r0⟩ := p
      by_cases hle : key m0 ≤ key x
      · simp only [hxs, if_pos hle, Option.some.injEq, Prod.mk.injEq] at h
        obtain ⟨rfl, -⟩ := h
        rcases List.mem_cons.mp hy with rfl | hy0
        · exact le_refl _
        · exact le_trans (ih m0 r0 hxs y hy0) hle
      · simp only [hxs, if_neg hle, Option.some.injEq, Prod.mk.injEq] at h
        obtain ⟨rfl, -⟩ := h
        rcases List.mem_cons.mp hy with rfl | hy0
        · exact le_of_not_le hle
        · exact ih m0 r0 hxs y hy0

theorem selectMaxIdx_fst_mem (key : ℕ → ℚ) :
    ∀ (l : List ℕ) (m : ℕ) (r : List ℕ), selectMaxIdx key l = some (m, r) →
      m ∈ l := by
  intro l
  induction l with
  | nil => intro m r h; simp [selectMaxIdx] at h
  | cons x xs ih =>
    intro m r h
    simp only [selectMaxIdx] at h
    cases hxs : selectMaxIdx key xs with
    | none =>
      simp only [hxs, Option.some.injEq, Prod.mk.injEq] at h
      obtain ⟨rfl, -⟩ := h
      exact List.mem_cons_self _ _
    | some p =>
      obtain ⟨m0, r0⟩ := p
      by_cases hle : key m0 ≤ key x
      · simp only [hxs, if_pos hle, Option.some.injEq, Prod.mk.injEq] at h
        obtain ⟨rfl, -⟩ := h
        exact List.mem_cons_self _ _
      · simp only [hxs, if_neg hle, Option.some.injEq, Prod.mk.injEq] at h
        obtain ⟨rfl, -⟩ := h
        exact List.mem_cons_of_mem _ (ih m0 r0 hxs)

theorem selectMaxIdx_snd_subset (key : ℕ → ℚ) :
    ∀ (l : List ℕ) (m : ℕ) (r : List ℕ), selectMaxIdx key l = some (m, r) →
      ∀ y ∈ r, y ∈ l := by
  intro l
  induction l with
  | nil => intro m r h; simp [selectMaxIdx] at h
  | cons x xs ih =>
    intro m r h y hy
    simp only [selectMaxIdx] at h
    cases hxs : selectMaxIdx key xs with
    | none =>
      simp only [hxs, Option.some.injEq, Prod.mk.injEq] at h
      obtain ⟨-, rfl⟩ := h
      simp at hy
    | some p =>
      obtain ⟨m0, r0⟩ := p
      by_cases hle : key m0 ≤ key x
      · simp only [hxs, if_pos hle, Option.some.injEq, Prod.mk.injEq] at h
        obtain ⟨-, rfl⟩ := h
        exact List.mem_cons_of_mem _ hy
      · simp only [hxs, if_neg hle, Option.some.injEq, Prod.mk.injEq] at h
        obtain ⟨-, rfl⟩ := h
        rcases List.mem_cons.mp hy with rfl | hy0
        · exact List.mem_cons_self _ _
        · exact List.mem_cons_of_mem _ (ih m0 r0 hxs y hy0)

/-- The two rows `nlargest2` returns come in descending key order. -/
theorem nlargest2_ge (key : ℕ → ℚ) (l : List ℕ) (a b : ℕ)
    (h : nlargest2 key l = some (a, b)) : key b ≤ key a := by
  unfold nlargest2 at h
  cases h0 : selectMaxIdx key l with
  | none => simp [h0] at h
  | some p =>
    obtain ⟨m0, r⟩ := p
    cases h1 : selectMaxIdx key r with
    | none => simp [h0, h1] at h
    | some q =>
      obtain ⟨m1, r1⟩ := q
      simp only [h0, h1, Option.some.injEq, Prod.mk.injEq] at h
      obtain ⟨rfl, rfl⟩ := h
      exact selectMaxIdx_max key l m0 r h0 m1
        (selectMaxIdx_snd_subset key l m0 r h0 m1 (selectMaxIdx_fst_mem key r m1 r1 h1))

/-- The bearish branch of the delta-divergence detector is dead: `nlargest`
orders by value, so its "higher high" test compares the second-largest high
against the largest and always fails. -/
theorem ddBearPart_none (cs : List Candle) : ddBearPart cs = some none := by
  unfold ddBearPart
  cases hq : nlargest2 (highF cs) (last20Idxs cs) with
  | none => rfl
  | some p =>
    obtain ⟨q0, q1⟩ := p
    have hge := nlargest2_ge (highF cs) (last20Idxs cs) q0 q1 hq
    have hcond : ddBearCond cs q0 q1 = false := by
      unfold ddBearCond
      have : decide (highF cs q0 < highF cs q1) = false := by
        simp [not_lt.mpr hge]
      simp [this]
    simp [hcond]

/-- `delta_divergence_strategy` never emits and never raises: both of its
divergence tests are dead (the `nsmallest`/`nlargest` rank ordering makes
the price comparison unsatisfiable). -/
theorem dd_always_none (cs : List Candle) :
    delta_divergence_strategy cs = some none := by
  unfold delta_divergence_strategy
  cases hp : nsmallest2 (lowF cs) (last20Idxs cs) with
  | none => exact ddBearPart_none cs
  | some p =>
    obtain ⟨p0, p1⟩ := p
    have hle := nsmallest2_le (lowF cs) (last20Idxs cs) p0 p1 hp
    have hcond : ddBullCond cs p0 p1 = false := by
      unfold ddBullCond
      have : decide (lowF cs p1 < lowF cs p0) = false := by
        simp [not_lt.mpr hle]
      simp [this]
    simp [hcond]
    exact ddBearPart_none cs

/-- The fair-value-gap-up flag is always false on the last row: the forward
shift is NaN there. -/
theorem fvg_up_last (cs : List Candle) (h : 1 ≤ cs.length) :
    fvg_up cs (cs.length - 1) = false := by
  unfold fvg_up
  have hlt : ¬ cs.length - 1 + 1 < cs.length := by omega
  rw [if_neg hlt]
  exact EF.blt_nan_right _

/-- The fair-value-gap-down flag is always false on the last row. -/
theorem fvg_down_last (cs : List Candle) (h : 1 ≤ cs.length) :
    fvg_down cs (cs.length - 1) = false := by
  unfold fvg_down
  have hlt : ¬ cs.length - 1 + 1 < cs.length := by omega
  rw [if_neg hlt]
  exact EF.blt_nan_left _

/-- `liquidity_sweep_fvg_strategy` returns "no signal" on every nonempty
frame: both branches require a fair-value-gap flag on the last row, which is
always false. -/
theorem liq_some_none (cs : List Candle) (h : 1 ≤ cs.length) :
    liquidity_sweep_fvg_strategy cs = some none := by
  have hlc : liqLongCond cs = false := by
    unfold liqLongCond
    simp [fvg_up_last cs h]
  have hsc : liqShortCond cs = false := by
    unfold liqShortCond
    simp [fvg_down_last cs h]
  unfold liquidity_sweep_fvg_strategy
  rw [if_neg (by omega : ¬ cs.length = 0), hlc, hsc]
  simp

/-- `liquidity_sweep_fvg_strategy` never emits a signal. -/
theorem liq_never_emits (cs : List Candle) (s : Signal) :
    liquidity_sweep_fvg_strategy cs ≠ some (some s) := by
  by_cases h : 1 ≤ cs.length
  · rw [liq_some_none cs h]
    simp
  · unfold liquidity_sweep_fvg_strategy
    rw [if_pos (by omega : cs.length = 0)]
    simp

/-- Below 20 candles the volume-average conjunct of the EMA-crossover
detector is a NaN comparison, so neither branch can fire. -/
theorem ema_small_none (cs : List Candle) (h2 : 2 ≤ cs.length)
    (h20 : cs.length < 20) : ema_crossover_rsi_strategy cs = some none := by
  have hroll : rollingMean 20 (volF cs) (cs.length - 1) = .nan :=
    rollingMean_nan (by omega)
  have hlc : emaLongCond cs = false := by
    unfold emaLongCond
    simp [hroll, EF.mul_nan_left, EF.blt_nan_left]
  have hsc : emaShortCond cs = false := by
    unfold emaShortCond
    simp [hroll, EF.mul_nan_left, EF.blt_nan_left]
  unfold ema_crossover_rsi_strategy
  rw [if_neg (by omega : ¬ cs.length < 2)]
  simp [hlc, hsc]

/-- Below 20 candles the volume-average conjunct blocks both branches of the
volume-profile detector. -/
theorem vp_small_none (cs : List Candle) (h1 : 1 ≤ cs.length)
    (h20 : cs.length < 20) : volume_profile_order_flow_strategy cs = some none := by
  have hroll : rollingMean 20 (volF cs) (cs.length - 1) = .nan :=
    rollingMean_nan (by omega)
  have hlc : vpLongCond cs = false := by
    unfold vpLongCond
    simp [hroll, EF.mul_nan_left, EF.blt_nan_left]
  have hsc : vpShortCond cs = false := by
    unfold vpShortCond
    simp [hroll, EF.mul_nan_left, EF.blt_nan_left]
  unfold volume_profile_order_flow_strategy
  rw [if_neg (by omega : ¬ cs.length = 0)]
  simp [hlc, hsc]

/-- Below 14 candles the RSI at the last row is NaN, so neither branch of the
market-structure detector can fire. -/
theorem msb_small_none (cs : List Candle) (h1 : 1 ≤ cs.length)
    (h14 : cs.length < 14) : market_structure_break_strategy cs = some none := by
  have hrsi : calculate_rsi (closeF cs) 14 (cs.length - 1) = .nan :=
    rsi_nan_of_short (by omega)
  have hlc : msbLongCond cs = false := by
    unfold msbLongCond
    simp [hrsi, EF.blt_nan_right]
  have hsc : msbShortCond cs = false := by
    unfold msbShortCond
    simp [hrsi, EF.blt_nan_left]
  unfold market_structure_break_strategy
  rw [if_neg (by omega : ¬ cs.length = 0)]
  simp [hlc, hsc]

/-- Inversion of an emission by the EMA-crossover detector. -/
theorem ema_emits {cs : List Candle} {s : Signal}
    (h : ema_crossover_rsi_strategy cs = some (some s)) :
    (emaLongCond cs = true ∧ s = emaLongSignal cs) ∨
    (emaShortCond cs = true ∧ s = emaShortSignal cs) := by
  unfold ema_crossover_rsi_strategy at h
  split_ifs at h with h1 h2 h3
  · left
    simp only [Option.some.injEq] at h
    exact ⟨h2, h.symm⟩
  · right
    simp only [Option.some.injEq] at h
    exact ⟨h3, h.symm⟩
  · simp at h

/-- Inversion of an emission by the volume-profile detector. -/
theorem vp_emits {cs : List Candle} {s : Signal}
    (h : volume_profile_order_flow_strategy cs = some (some s)) :
    (vpLongCond cs = true ∧ s = vpLongSignal cs) ∨
    (vpShortCond cs = true ∧ s = vpShortSignal cs) := by
  unfold volume_profile_order_flow_strategy at h
  split_ifs at h with h1 h2 h3
  · left
    simp only [Option.some.injEq] at h
    exact ⟨h2, h.symm⟩
  · right
    simp only [Option.some.injEq] at h
    exact ⟨h3, h.symm⟩
  · simp at h

/-- Inversion of an emission by the market-structure detector. -/
theorem msb_emits {cs : List Candle} {s : Signal}
    (h : market_structure_break_strategy cs = some (some s)) :
    (msbLongCond cs = true ∧ s = msbLongSignal cs) ∨
    (msbShortCond cs = true ∧ s = msbShortSignal cs) := by
  unfold market_structure_break_strategy at h
  split_ifs at h with h1 h2 h3
  · left
    simp only [Option.some.injEq] at h
    exact ⟨h2, h.symm⟩
  · right
    simp only [Option.some.injEq] at h
    exact ⟨h3, h.symm⟩
  · simp at h

/-- A firing EMA-crossover condition forces at least 20 candles (the volume
rolling average must be non-NaN). -/
theorem emaLongCond_length {cs : List Candle} (h : emaLongCond cs = true) :
    20 ≤ cs.length := by
  unfold emaLongCond at h
  simp only [Bool.and_eq_true] at h
  have := blt_mul_rollingMean_true h.2
  omega

theorem emaShortCond_length {cs : List Candle} (h : emaShortCond cs = true) :
    20 ≤ cs.length := by
  unfold emaShortCond at h
  simp only [Bool.and_eq_true] at h
  have := blt_mul_rollingMean_true h.2
  omega

theorem vpLongCond_length {cs : List Candle} (h : vpLongCond cs = true) :
    20 ≤ cs.length := by
  unfold vpLongCond at h
  simp only [Bool.and_eq_true] at h
  have := blt_mul_rollingMean_true h.2
  omega

theorem vpShortCond_length {cs : List Candle} (h : vpShortCond cs = true) :
    20 ≤ cs.length := by
  unfold vpShortCond at h
  simp only [Bool.and_eq_true] at h
  have := blt_mul_rollingMean_true h.2
  omega

theorem msbLongCond_length {cs : List Candle} (h : msbLongCond cs = true) :
    14 ≤ cs.length := by
  unfold msbLongCond at h
  simp only [Bool.and_eq_true] at h
  have := rsi_length_of_blt_right h.1.2
  omega

theorem msbShortCond_length {cs : List Candle} (h : msbShortCond cs = true) :
    14 ≤ cs.length := by
  unfold msbShortCond at h
  simp only [Bool.and_eq_true] at h
  have := rsi_length_of_blt_left h.1.2
  omega

/-- Every EMA-crossover signal satisfies the weak ordering: its stop and
target sit `2*ATR` below and `4*ATR` above the entry, and the ATR of a full
window clear of index 0 is nonnegative. -/
theorem ema_weak_ordered (cs : List Candle) (s : Signal)
    (h : ema_crossover_rsi_strategy cs = some (some s)) :
    sigWeakOrderedB s = true := by
  rcases ema_emits h with ⟨hc, rfl⟩ | ⟨hc, rfl⟩
  · have hn := emaLongCond_length hc
    obtain ⟨a, ha, ha0⟩ :=
      atr_fin_nonneg cs (show 13 ≤ cs.length - 1 by omega)
        (fun h13 => absurd h13 (by omega))
    simp only [sigWeakOrderedB, emaLongSignal, ha, EF.mul_fin_fin,
      EF.sub_fin_fin, EF.add_fin_fin, EF.ble_fin_fin, Bool.and_eq_true,
      decide_eq_true_eq]
    constructor <;> linarith
  · have hn := emaShortCond_length hc
    obtain ⟨a, ha, ha0⟩ :=
      atr_fin_nonneg cs (show 13 ≤ cs.length - 1 by omega)
        (fun h13 => absurd h13 (by omega))
    simp only [sigWeakOrderedB, emaShortSignal, ha, EF.mul_fin_fin,
      EF.sub_fin_fin, EF.add_fin_fin, EF.ble_fin_fin, Bool.and_eq_true,
      decide_eq_true_eq]
    constructor <;> linarith

/-- Every volume-profile signal satisfies the weak ordering, with the stop
side strict: the firing condition places the VWAP strictly on the stop side
of the close, and the ATR term only pushes the stop further out. -/
theorem vp_ordered (cs : List Candle) (s : Signal)
    (h : volume_profile_order_flow_strategy cs = some (some s)) :
    sigWeakOrderedB s = true ∧ sigStopStrictB s = true := by
  rcases vp_emits h with ⟨hc, rfl⟩ | ⟨hc, rfl⟩
  · have hn := vpLongCond_length hc
    obtain ⟨a, ha, ha0⟩ :=
      atr_fin_nonneg cs (show 13 ≤ cs.length - 1 by omega)
        (fun h13 => absurd h13 (by omega))
    have hb : EF.blt (calculate_vwap cs (cs.length - 1))
        (.fin (closeF cs (cs.length - 1))) = true := by
      unfold vpLongCond at hc
      simp only [Bool.and_eq_true] at hc
      exact hc.1.1.1
    rcases EF.blt_fin_right hb with hv | ⟨q, hv, hq⟩
    · simp only [sigWeakOrderedB, sigStopStrictB, vpLongSignal, ha, hv,
        EF.sub_ninf_fin, EF.mul_fin_fin, EF.add_fin_fin, EF.ble_fin_fin,
        EF.ble_ninf_fin, EF.blt_ninf_fin, Bool.and_eq_true, decide_eq_true_eq]
      refine ⟨⟨trivial, by linarith⟩, trivial⟩
    · simp only [sigWeakOrderedB, sigStopStrictB, vpLongSignal, ha, hv,
        EF.sub_fin_fin, EF.mul_fin_fin, EF.add_fin_fin, EF.ble_fin_fin,
        EF.blt_fin_fin, Bool.and_eq_true, decide_eq_true_eq]
      refine ⟨⟨by linarith, by linarith⟩, by linarith⟩
  · have hn := vpShortCond_length hc
    obtain ⟨a, ha, ha0⟩ :=
      atr_fin_nonneg cs (show 13 ≤ cs.length - 1 by omega)
        (fun h13 => absurd h13 (by omega))
    have hb : EF.blt (.fin (closeF cs (cs.length - 1)))
        (calculate_vwap cs (cs.length - 1)) = true := by
      unfold vpShortCond at hc
      simp only [Bool.and_eq_true] at hc
      exact hc.1.1.1
    rcases EF.blt_fin_left hb with hv | ⟨q, hv, hq⟩
    · simp only [sigWeakOrderedB, sigStopStrictB, vpShortSignal, ha, hv,
        EF.add_pinf_fin, EF.mul_fin_fin, EF.sub_fin_fin, EF.ble_fin_fin,
        EF.ble_fin_pinf, EF.blt_fin_pinf, Bool.and_eq_true, decide_eq_true_eq]
      refine ⟨⟨by linarith, trivial⟩, trivial⟩
    · simp only [sigWeakOrderedB, sigStopStrictB, vpShortSignal, ha, hv,
        EF.add_fin_fin, EF.mul_fin_fin, EF.sub_fin_fin, EF.ble_fin_fin,
        EF.blt_fin_fin, Bool.and_eq_true, decide_eq_true_eq]
      refine ⟨⟨by linarith, by linarith⟩, by linarith⟩

/-- Every market-structure signal has its target on the correct side of the
entry, provided the first candle is well-formed (its low not above its high,
needed only when the 14-candle ATR window reaches back to index 0). -/
theorem msb_entry_tp (cs : List Candle) (s : Signal)
    (h : market_structure_break_strategy cs = some (some s))
    (hwf : lowF cs 0 ≤ highF cs 0) : sigEntryTpWeakB s = true := by
  rcases msb_emits h with ⟨hc, rfl⟩ | ⟨hc, rfl⟩
  · have hn := msbLongCond_length hc
    obtain ⟨a, ha, ha0⟩ :=
      atr_fin_nonneg cs (show 13 ≤ cs.length - 1 by omega) (fun _ => hwf)
    simp only [sigEntryTpWeakB, msbLongSignal, ha, EF.mul_fin_fin,
      EF.add_fin_fin, EF.ble_fin_fin, decide_eq_true_eq]
    linarith
  · have hn := msbShortCond_length hc
    obtain ⟨a, ha, ha0⟩ :=
      atr_fin_nonneg cs (show 13 ≤ cs.length - 1 by omega) (fun _ => hwf)
    simp only [sigEntryTpWeakB, msbShortSignal, ha, EF.mul_fin_fin,
      EF.sub_fin_fin, EF.ble_fin_fin, decide_eq_true_eq]
    linarith

/-- The liquidity-sweep detector result is never an emitted signal. -/
theorem liq_emits_false (cs : List Candle) :
    emitsSignal (liquidity_sweep_fvg_strategy cs) = false := by
  by_cases h : 1 ≤ cs.length
  · rw [liq_some_none cs h]
    rfl
  · unfold liquidity_sweep_fvg_strategy
    rw [if_pos (by omega : cs.length = 0)]
    rfl

/-- Pointwise RSI values for finite average gain and loss. -/
theorem rsi_of_fin (f : ℕ → ℚ) (p i : ℕ) (a b : ℚ)
    (hg : avg_gain f p i = .fin a) (hl : avg_loss f p i = .fin b) :
    (b ≠ 0 → calculate_rsi f p i = .fin (100 - 100 / (1 + a / b))) ∧
    (b = 0 → a ≠ 0 → calculate_rsi f p i = .fin 100) ∧
    (b = 0 → a = 0 → calculate_rsi f p i = .nan) := by
  have ha0 : 0 ≤ a := rollingMean_fin_nonneg (diffGain_nonneg f) hg
  have hb0 : 0 ≤ b := rollingMean_fin_nonneg (diffLoss_nonneg f) hl
  refine ⟨?_, ?_, ?_⟩
  · intro hb
    have hden : (0 : ℚ) < 1 + a / b :=
      by positivity
    unfold calculate_rsi
    rw [hg, hl]
    simp only [EF.div, if_neg hb, EF.add, EF.sub, EF.neg, if_neg hden.ne']
    norm_num [sub_eq_add_neg]
  · intro hb ha
    have hapos : 0 < a := ha0.lt_of_ne (Ne.symm ha)
    unfold calculate_rsi
    rw [hg, hl, hb]
    simp only [EF.div, if_pos rfl, if_neg ha, if_pos hapos, EF.add, EF.sub,
      EF.neg]
    norm_num
  · intro hb ha
    unfold calculate_rsi
    rw [hg, hl, hb, ha]
    simp [EF.div, EF.add, EF.sub, EF.neg]

/-- An iteration of the bot loop returns the state unchanged (the demo
`execute_trade` only logs; `positions` and `balance` are never written). -/
theorem loopIteration_fst (s : BotState) (fetched : Option (List Candle)) :
    (loopIteration s fetched).1 = s := by
  cases fetched with
  | none => rfl
  | some df =>
    simp only [loopIteration]
    by_cases h : 50 < df.length
    · rw [if_pos h]
      cases analyze_market df with
      | none => rfl
      | some sigs =>
        cases sigs with
        | nil => rfl
        | cons best rest =>
          by_cases hp : s.positions.length < s.config.max_positions
          · simp [hp]
          · simp [hp]
    · rw [if_neg h]

/-! ## Claim theorems -/

/-- C1 (amended): the strict directional ordering does not hold for every
emitted signal.  What holds is: EMA-crossover signals satisfy the weak
ordering `stop ≤ entry ≤ take-profit` (LONG, reversed for SHORT);
volume-profile signals satisfy the weak ordering with the stop side strict;
market-structure signals guarantee only `entry ≤ take-profit` (LONG,
reversed for SHORT) — and that only when the first candle's low does not
exceed its high — while their stop, the raw most recent swing extreme, may
lie on either side of the entry; the liquidity-sweep and delta-divergence
detectors never emit a signal at all. -/
theorem claim_C1_amended :
    (∀ (cs : List Candle) (s : Signal),
      ema_crossover_rsi_strategy cs = some (some s) → sigWeakOrderedB s = true) ∧
    (∀ (cs : List Candle) (s : Signal),
      volume_profile_order_flow_strategy cs = some (some s) →
        sigWeakOrderedB s = true ∧ sigStopStrictB s = true) ∧
    (∀ (cs : List Candle) (s : Signal),
      market_structure_break_strategy cs = some (some s) →
        lowF cs 0 ≤ highF cs 0 → sigEntryTpWeakB s = true) ∧
    (∀ cs : List Candle, emitsSignal (liquidity_sweep_fvg_strategy cs) = false) ∧
    (∀ cs : List Candle, delta_divergence_strategy cs = some none) :=
  ⟨fun cs s h => ema_weak_ordered cs s h,
   fun cs s h => vp_ordered cs s h,
   fun cs s h hwf => msb_entry_tp cs s h hwf,
   liq_emits_false,
   dd_always_none⟩

/-- C1 (counterexample): on `vpZeroAtrInput` the volume-profile detector
emits a LONG signal whose 14-candle ATR is zero, so `take_profit = entry`
and the claimed strict ordering `stop < entry < take_profit` fails. -/
theorem claim_C1_counterexample :
    resultStrictOrderedB (volume_profile_order_flow_strategy vpZeroAtrInput) =
      false := by
  with_unfolding_all rfl

/-- C1 (witness): the amended volume-profile conjunct applied to the
concrete emitting input. -/
theorem claim_C1_witness :
    sigWeakOrderedB (vpLongSignal vpZeroAtrInput) = true ∧
    sigStopStrictB (vpLongSignal vpZeroAtrInput) = true :=
  claim_C1_amended.2.1 vpZeroAtrInput (vpLongSignal vpZeroAtrInput)
    (by with_unfolding_all rfl)

/-- C2: for distinct entry and stop the position sizer returns
`(balance * risk_percent/100) / |entry - stop_loss| * leverage` rounded to
three decimals, and on the spec's concrete instance
(entry 100, stop 90, balance 10000, risk 1 percent, leverage 10) it returns
exactly 100. -/
theorem claim_C2 :
    (∀ (s : BotState) (entry stop_loss : ℚ), entry ≠ stop_loss →
      calculate_position_size s entry stop_loss =
        some (pyRound3 (s.balance * (s.config.risk_percent / 100) /
          |entry - stop_loss| * s.config.leverage))) ∧
    calculate_position_size (mkTradingBot defaultConfig) 100 90 = some 100 := by
  constructor
  · intro s entry stop_loss hne
    simp only [calculate_position_size]
    rw [if_neg (abs_ne_zero.mpr (sub_ne_zero.mpr hne))]
  · with_unfolding_all rfl

/-- C2 (witness): the sizing formula applied at the concrete instance. -/
theorem claim_C2_witness :
    calculate_position_size (mkTradingBot defaultConfig) 100 90 =
      some (pyRound3 ((mkTradingBot defaultConfig).balance *
        ((mkTradingBot defaultConfig).config.risk_percent / 100) /
        |(100 : ℚ) - 90| * (mkTradingBot defaultConfig).config.leverage)) :=
  claim_C2.1 (mkTradingBot defaultConfig) 100 90 (by norm_num)

/-- C3: with a zero stop distance the unguarded scalar division raises
(`none`), and `execute_trade` catches the exception and reports `False`, so
the trade is skipped. -/
theorem claim_C3 :
    ∀ (s : BotState) (entry stop_loss : ℚ), entry = stop_loss →
      calculate_position_size s entry stop_loss = none ∧
      execute_trade s entry stop_loss = false := by
  intro s entry stop_loss h
  subst h
  refine ⟨?_, ?_⟩
  · simp [calculate_position_size]
  · simp [execute_trade, calculate_position_size]

/-- C3 (witness): the zero-distance case at a concrete input. -/
theorem claim_C3_witness :
    calculate_position_size (mkTradingBot defaultConfig) 100 100 = none ∧
    execute_trade (mkTradingBot defaultConfig) 100 100 = false :=
  claim_C3 (mkTradingBot defaultConfig) 100 100 rfl

/-- C4 (amended): every detector yields "no signal" without error on
histories shorter than its minimum signalling window, but only above the
small positional-access minimum: at least 2 candles for the EMA-crossover
detector and at least 1 for the others; on still shorter input the
unguarded `iloc` access raises.  The liquidity-sweep detector in fact never
signals on any nonempty history, and the delta-divergence detector never
signals and never raises, even on the empty history. -/
theorem claim_C4_amended :
    (∀ cs : List Candle, 2 ≤ cs.length → cs.length < 20 →
      ema_crossover_rsi_strategy cs = some none) ∧
    (∀ cs : List Candle, 1 ≤ cs.length → cs.length < 20 →
      volume_profile_order_flow_strategy cs = some none) ∧
    (∀ cs : List Candle, 1 ≤ cs.length → cs.length < 14 →
      market_structure_break_strategy cs = some none) ∧
    (∀ cs : List Candle, 1 ≤ cs.length →
      liquidity_sweep_fvg_strategy cs = some none) ∧
    (∀ cs : List Candle, delta_divergence_strategy cs = some none) :=
  ⟨ema_small_none, vp_small_none, msb_small_none, liq_some_none, dd_always_none⟩

/-- C4 (counterexample): the EMA-crossover detector raises (modelled as
`none`) on the empty and on the single-candle history, contradicting
"returns no signal and never raises an error" for those inputs. -/
theorem claim_C4_counterexample :
    ema_crossover_rsi_strategy [] = none ∧
    ema_crossover_rsi_strategy [candleA] = none := by
  exact ⟨by with_unfolding_all rfl, by with_unfolding_all rfl⟩

/-- C4 (witness): each amended conjunct applied at a concrete short
history. -/
theorem claim_C4_witness :
    ema_crossover_rsi_strategy [candleA, candleB] = some none ∧
    volume_profile_order_flow_strategy [candleA] = some none ∧
    market_structure_break_strategy [candleA] = some none ∧
    liquidity_sweep_fvg_strategy [candleA] = some none ∧
    delta_divergence_strategy [candleA] = some none :=
  ⟨claim_C4_amended.1 [candleA, candleB] (by decide) (by decide),
   claim_C4_amended.2.1 [candleA] (by decide) (by decide),
   claim_C4_amended.2.2.1 [candleA] (by decide) (by decide),
   claim_C4_amended.2.2.2.1 [candleA] (by decide),
   claim_C4_amended.2.2.2.2 [candleA]⟩

/-- C5: `liqSweepInput` satisfies every intended liquidity-sweep LONG
condition (sweep 95 < 99, recovery 103 > 100.5, an up fair-value gap at the
middle candle since 101.5 > 101, volume 10 > 1.5 * average), yet the code
emits nothing: its `fvg_up` flag is evaluated on the last row where the
forward shift is NaN, so both branches are dead. -/
theorem claim_C5_code_eval :
    liquidity_sweep_fvg_strategy liqSweepInput = some none := by
  with_unfolding_all rfl

/-- C6: `ddDivergenceInput` satisfies every intended bullish-divergence
condition (the more recent of the two lowest lows is lower, 41 < 42, with a
higher delta, -1/2 > -1, OBV 91 above its mean -981/20, RSI 800/67 < 40),
yet the code emits nothing: `nsmallest` orders rows by price, so the
"lower low" test compares the second-smallest low against the smallest and
is always false. -/
theorem claim_C6_code_eval :
    delta_divergence_strategy ddDivergenceInput = some none := by
  with_unfolding_all rfl

/-- C7: `start_bot` of `main-no-ccxt.py` rejects with the already-running
response (state stays Running) when running, blocks with the
insufficient-balance response (state stays Idle) when the fetched total
balance is non-positive, and otherwise starts the bot (state becomes
Running). -/
theorem claim_C7 :
    (∀ (creds : Bool) (fetched : Option ℚ),
      start_bot true creds fetched = (.alreadyRunning, true)) ∧
    (∀ b : ℚ, b ≤ 0 →
      start_bot false true (some b) = (.blockedInsufficientBalance, false)) ∧
    (∀ b : ℚ, 0 < b → start_bot false true (some b) = (.started, true)) := by
  refine ⟨fun creds fetched => rfl, fun b hb => ?_, fun b hb => ?_⟩
  · simp [start_bot, hb]
  · simp [start_bot, not_le.mpr hb]

/-- C7 (witness): the three branches at concrete balances. -/
theorem claim_C7_witness :
    start_bot true false none = (.alreadyRunning, true) ∧
    start_bot false true (some 0) = (.blockedInsufficientBalance, false) ∧
    start_bot false true (some 50) = (.started, true) :=
  ⟨claim_C7.1 false none, claim_C7.2.1 0 (le_refl 0),
   claim_C7.2.2 50 (by norm_num)⟩

/-- C8 (amended): the RSI is NaN on an unfilled window and where both the
average gain and the average loss vanish; where the average loss is zero
and the average gain is not, the IEEE division makes the RSI exactly 100
(not NaN as claimed); elsewhere it is `100 - 100/(1 + gain/loss)`.  Once
the window is filled both averages are finite (the initial NaN difference
is coerced to 0 by the `where(..., 0)` masking). -/
theorem claim_C8_amended :
    ∀ (f : ℕ → ℚ) (p i : ℕ),
      (i + 1 < p → calculate_rsi f p i = .nan) ∧
      (¬ i + 1 < p →
        avg_gain f p i = .fin (windowSum p (diffGain f) i / p) ∧
        avg_loss f p i = .fin (windowSum p (diffLoss f) i / p)) ∧
      (∀ a b : ℚ, avg_gain f p i = .fin a → avg_loss f p i = .fin b →
        ((b ≠ 0 → calculate_rsi f p i = .fin (100 - 100 / (1 + a / b))) ∧
         (b = 0 → a ≠ 0 → calculate_rsi f p i = .fin 100) ∧
         (b = 0 → a = 0 → calculate_rsi f p i = .nan))) := by
  intro f p i
  refine ⟨fun h => rsi_nan_of_short h, fun h => ⟨rollingMean_fin h, rollingMean_fin h⟩,
    fun a b hg hl => rsi_of_fin f p i a b hg hl⟩

/-- C8 (counterexample): on the strictly increasing price series `j` with
period 14, index 13 has average loss 0 but the RSI is the finite value 100,
not NaN as the claim requires at every zero-loss index. -/
theorem claim_C8_counterexample :
    avg_loss (fun j => (j : ℚ)) 14 13 = .fin 0 ∧
    calculate_rsi (fun j => (j : ℚ)) 14 13 = .fin 100 := by
  exact ⟨by with_unfolding_all rfl, by with_unfolding_all rfl⟩

/-- C8 (witness): the amended characterisation applied at concrete series:
NaN on an unfilled window, and the formula value on a strictly decreasing
series. -/
theorem claim_C8_witness :
    calculate_rsi (fun j => (j : ℚ)) 14 5 = .nan ∧
    calculate_rsi (fun j => -(j : ℚ)) 14 13 =
      .fin (100 - 100 / (1 + 0 / (13 / 14))) :=
  ⟨(claim_C8_amended (fun j => (j : ℚ)) 14 5).1 (by norm_num),
   ((claim_C8_amended (fun j => -(j : ℚ)) 14 13).2.2 0 (13 / 14)
      (by with_unfolding_all rfl) (by with_unfolding_all rfl)).1 (by norm_num)⟩

/-- C9: the EMA of a constant series is that constant at every index: the
recursion is seeded with the first value and `(1-a)*v + a*v = v` for any
smoothing factor. -/
theorem claim_C9 :
    ∀ (f : ℕ → ℚ) (v : ℚ) (period i : ℕ), (∀ j, f j = v) →
      calculate_ema f period i = v := by
  intro f v period i hf
  induction i with
  | zero =>
    simpa [calculate_ema, ewmMean] using hf 0
  | succ k ih =>
    have ih' : ewmMean (emaAlpha period) f k = v := ih
    show ewmMean (emaAlpha period) f (k + 1) = v
    rw [ewmMean, ih', hf (k + 1)]
    ring

/-- C9 (witness): the fixed point at a concrete constant series. -/
theorem claim_C9_witness :
    calculate_ema (fun _ => (7 : ℚ)) 9 5 = 7 :=
  claim_C9 (fun _ => (7 : ℚ)) 7 9 5 (fun _ => rfl)

/-- C10: the bot's balance is 10000 at construction and no modelled
operation writes it: a loop iteration returns the state unchanged,
`run`'s start and `stop` only toggle `is_running`, and consequently the
position size from a freshly constructed bot is computed against
balance 10000. -/
theorem claim_C10 :
    (∀ cfg : BotConfig, (mkTradingBot cfg).balance = 10000) ∧
    (∀ (s : BotState) (fetched : Option (List Candle)),
      (loopIteration s fetched).1 = s) ∧
    (∀ s : BotState, (startRun s).balance = s.balance) ∧
    (∀ s : BotState, (stopBot s).balance = s.balance) ∧
    (∀ (cfg : BotConfig) (entry stop_loss : ℚ),
      calculate_position_size (mkTradingBot cfg) entry stop_loss =
        (if |entry - stop_loss| = 0 then none
         else some (pyRound3 (10000 * (cfg.risk_percent / 100) /
           |entry - stop_loss| * cfg.leverage)))) :=
  ⟨fun _ => rfl, loopIteration_fst, fun _ => rfl, fun _ => rfl,
   fun _ _ _ => rfl⟩

end BiBot
